import Mathlib

/-!
Shallow embedding of the taipo-bist-bot market-notification bot
(src/main.py and src/new_filter.py) with proofs about the
breakout picker, the window evaluator, the dedup/cooldown guard,
the day-rollover reset, the tracking/EOD reports and the news filter.

Numeric values (prices, percentages) are modelled as rationals;
Unix timestamps and cooldowns as integers; Python dicts as
association lists with shadowing insert; the external notification
transport outcome as an explicit boolean; the (process-seeded,
hence externally determined) content hash of src/main.py
as an explicit function argument.
-/

namespace TaipoBist

/-- A quote as produced by `fetch_quote` / `scan_quotes_bulk_intraday`
in src/main.py: symbol, current price, previous close, percentage
change, and the optional volume ratio (only sometimes present). -/
structure Quote where
  symbol : String
  price : ℚ
  prev_close : ℚ
  change_pct : ℚ
  vol_ratio : Option ℚ
deriving DecidableEq, Repr

/-! ## Breakout picker (src/main.py, pick_breakouts_with_auto_band) -/

/-- `AUTO_BAND_STEPS` from src/main.py: the ordered band list, from
narrowest to widest. -/
def AUTO_BAND_STEPS : List (ℚ × ℚ) :=
  [(0.40, 0.90), (0.40, 1.00), (0.40, 1.20), (0.30, 1.20),
   (0.20, 1.50), (0.10, 2.00), (0.00, 3.00)]

/-- `PICK_COUNT` from src/main.py. -/
def PICK_COUNT : ℕ := 3

/-- `_rank_score` inside `pick_breakouts_with_auto_band`:
volume ratio (default 0) times 10 plus percentage change. -/
def rank_score (q : Quote) : ℚ :=
  (q.vol_ratio.getD 0) * 10 + q.change_pct

/-- The positive-movers filter at the top of
`pick_breakouts_with_auto_band`: keep quotes with strictly positive
`change_pct`. -/
def quotes_pos (quotes : List Quote) : List Quote :=
  quotes.filter (fun q => 0 < q.change_pct)

/-- The per-band pool: quotes (already filtered to positive movers)
whose `change_pct` lies within the closed band. -/
def band_pool (qp : List Quote) (b : ℚ × ℚ) : List Quote :=
  qp.filter (fun q => b.1 ≤ q.change_pct ∧ q.change_pct ≤ b.2)

/-- `sorted(pool, key=_rank_score, reverse=True)`: stable descending
sort by rank score (stable merge sort, ties keep input order, as in
Python). -/
def sort_by_rank (pool : List Quote) : List Quote :=
  pool.mergeSort (fun a b => rank_score b ≤ rank_score a)

/-- The band loop of `pick_breakouts_with_auto_band`: iterate the
bands in order; skip empty pools; as soon as a band's sorted pool has
at least `n` members, return its top `n` together with the band. -/
def pick_from_bands (qp : List Quote) (n : ℕ) : List (ℚ × ℚ) → Option (List Quote × (ℚ × ℚ))
  | [] => none
  | b :: rest =>
    let pool := band_pool qp b
    if pool.isEmpty then pick_from_bands qp n rest
    else
      let pool_sorted := sort_by_rank pool
      if n ≤ pool_sorted.length then some (pool_sorted.take n, b)
      else pick_from_bands qp n rest

/-- `pick_breakouts_with_auto_band` from src/main.py: run the band
loop over `AUTO_BAND_STEPS`; if no band reaches `n`, apply the fixed
fallback band [0, 3] and return its top `n` only when that is exactly
`n` long, otherwise return the empty selection with no band. -/
def pick_breakouts_with_auto_band (quotes : List Quote) (n : ℕ) :
    List Quote × Option (ℚ × ℚ) :=
  let qp := quotes_pos quotes
  match pick_from_bands qp n AUTO_BAND_STEPS with
  | some (sel, b) => (sel, some b)
  | none =>
    let fallback :=
      (sort_by_rank (qp.filter (fun q => 0 ≤ q.change_pct ∧ q.change_pct ≤ 3))).take n
    if fallback.length = n then (fallback, some (0, 3)) else ([], none)

/-! ## Window evaluator (src/main.py, the is_*_time_now helpers)

The Python helpers read only `datetime.now(TZ).weekday()`, `.hour`
and `.minute`; they are modelled as pure functions of those three
numbers. -/

/-- `TRACK_HOURS_TR` from src/main.py. -/
def TRACK_HOURS_TR : List ℕ := [11, 12, 13, 14, 15, 16, 17]

/-- `TRACK_MINUTE_TR` from src/main.py. -/
def TRACK_MINUTE_TR : ℕ := 0

/-- `is_weekday_tr`: Monday..Friday (weekday() < 5). -/
def is_weekday_tr (wd : ℕ) : Bool := wd < 5

/-- `is_open_report_time_now`: weekday and 10:00 exactly. -/
def is_open_report_time (wd h m : ℕ) : Bool :=
  is_weekday_tr wd && h == 10 && m == 0

/-- `is_pick_trigger_time_now`: weekday and 10:10 exactly. -/
def is_pick_trigger_time (wd h m : ℕ) : Bool :=
  is_weekday_tr wd && h == 10 && m == 10

/-- `is_track_time_now`: weekday, hour in `TRACK_HOURS_TR` and
minute equal to `TRACK_MINUTE_TR`. -/
def is_track_time (wd h m : ℕ) : Bool :=
  is_weekday_tr wd && TRACK_HOURS_TR.contains h && m == TRACK_MINUTE_TR

/-- `is_preclose_time_now`: weekday and 17:30 exactly. -/
def is_preclose_time (wd h m : ℕ) : Bool :=
  is_weekday_tr wd && h == 17 && m == 30

/-- `is_close_report_time_now`: weekday and 18:10 exactly. -/
def is_close_report_time (wd h m : ℕ) : Bool :=
  is_weekday_tr wd && h == 18 && m == 10

/-! ## Persisted state (state.json) -/

/-- One record of `state["last_auto_sent"]`: Unix timestamp and
content hash of the last successfully sent message under a key. -/
structure AutoSentRec where
  ts : ℤ
  hash : String
deriving DecidableEq, Repr

/-- The `state["watch"]` sub-dictionary. -/
structure WatchState where
  symbols : List String
  baseline : List (String × ℚ)
  picked_at : String
  band_used : String
deriving DecidableEq, Repr

/-- The persisted `state.json` dictionary (fields always present,
mirroring `ensure_files` / the key-ensuring prologue of
`ensure_today_state`; the movers cache payload is kept abstract as a
list of quotes). -/
structure BotState where
  last_update_id : ℤ
  last_command_reply_ts : ℤ
  last_id_reply_ts : ℤ
  day : String
  watch : WatchState
  sent_pick_message : Bool
  last_track_sent_key : String
  news_seen : List (String × ℤ)
  movers_cache_ts : ℤ
  movers_cache_data : Option (List Quote)
  eod_sent_day : String
  last_auto_sent : List (String × AutoSentRec)
deriving DecidableEq, Repr

/-- Python `dict.get` over an association list (later inserts
shadow earlier bindings, so insert is modelled as cons). -/
def lookupKey {α : Type} (k : String) : List (String × α) → Option α
  | [] => none
  | (k2, v) :: rest => if k2 = k then some v else lookupKey k rest

/-! ## Dedup / cooldown guard (src/main.py, send_auto_deduped)

`_hash_text` wraps Python's process-seeded string hash; it is kept
as an explicit function argument `hashText`.  The outcome of the
external `send_message` transport call is the boolean `sendOk`. -/

/-- The suppression test of `send_auto_deduped`: same stored hash
for the key AND still within the cooldown (missing record behaves
as ts 0 and hash ""). -/
def dedup_suppressed (hashText : String → String) (st : BotState)
    (key text : String) (now cooldown : ℤ) : Bool :=
  let prev := lookupKey key st.last_auto_sent
  let prev_ts : ℤ := (prev.map AutoSentRec.ts).getD 0
  let prev_h : String := (prev.map AutoSentRec.hash).getD ""
  prev_h == hashText text && now - prev_ts < cooldown

/-- `send_auto_deduped` from src/main.py: return the state unchanged
when suppressed; otherwise attempt the send, and record the new
timestamp and hash for the key only when the transport reports
success. -/
def send_auto_deduped (hashText : String → String) (st : BotState)
    (key text : String) (now cooldown : ℤ) (sendOk : Bool) : BotState :=
  if dedup_suppressed hashText st key text now cooldown then st
  else if sendOk then
    { st with last_auto_sent := (key, ⟨now, hashText text⟩) :: st.last_auto_sent }
  else st

/-! ## Day rollover (src/main.py, ensure_today_state and main) -/

/-- `ensure_today_state`: when the stored day differs from today,
reset the watch ledger, the pick flag, the track key, the movers
cache, the EOD day flag and the auto-send dedup records (the
news-seen map is deliberately kept). -/
def ensure_today_state (today : String) (st : BotState) : BotState :=
  if st.day ≠ today then
    { st with
      day := today
      watch := ⟨[], [], "", ""⟩
      sent_pick_message := false
      last_track_sent_key := ""
      movers_cache_ts := 0
      movers_cache_data := none
      eod_sent_day := ""
      last_auto_sent := [] }
  else st

/-- The state pipeline of `main` in AUTO mode: `ensure_today_state`,
then the command listener, then `run_auto` (both abstracted as state
transformers, since the claim is about ordering around the reset). -/
def main_flow (commandLogic phaseLogic : BotState → BotState)
    (today : String) (st : BotState) : BotState :=
  phaseLogic (commandLogic (ensure_today_state today st))

/-! ## EOD finalizer (src/main.py, the 18:10 branch of run_auto)

The branch body only runs inside the close-report window; the
rendered summary text is one of its inputs (it is built from
externally fetched quotes).  After the guarded send the code sets
`eod_sent_day` unconditionally. -/

/-- The end-of-day branch of `run_auto`: skip when the flag already
names today; otherwise send the summary through the dedup guard and
then record `eod_sent_day := today`.  The boolean result reports
whether the branch body ran. -/
def run_auto_close (hashText : String → String) (today : String)
    (now : ℤ) (text : String) (sendOk : Bool) (st : BotState) :
    BotState × Bool :=
  if st.eod_sent_day = today then (st, false)
  else
    let st1 := send_auto_deduped hashText st "close" text now 1800 sendOk
    ({ st1 with eod_sent_day := today }, true)

/-- One scheduler invocation reaching the EOD logic: wall-clock
position, Unix time, rendered summary and transport outcome. -/
structure EodInvocation where
  wd : ℕ
  hour : ℕ
  minute : ℕ
  now : ℤ
  text : String
  sendOk : Bool

/-- A single invocation of `run_auto` as far as the EOD finalizer is
concerned: the EOD branch runs exactly when `is_close_report_time_now`
holds (no earlier branch of `run_auto` matches 18:10, and none of
them touches `eod_sent_day` or the "close" dedup key). -/
def run_auto_eod_invocation (hashText : String → String) (today : String)
    (inv : EodInvocation) (st : BotState) : BotState × Bool :=
  if is_close_report_time inv.wd inv.hour inv.minute then
    run_auto_close hashText today inv.now inv.text inv.sendOk st
  else (st, false)

/-- Iterated invocations; the second component counts how many of
them ran the EOD branch body (attempted the day's summary). -/
def run_auto_eod_many (hashText : String → String) (today : String) :
    List EodInvocation → BotState → BotState × ℕ
  | [], st => (st, 0)
  | inv :: rest, st =>
    let r1 := run_auto_eod_invocation hashText today inv st
    let r2 := run_auto_eod_many hashText today rest r1.1
    (r2.1, (if r1.2 then 1 else 0) + r2.2)

/-! ## Tracking and EOD report lines
(src/main.py, build_track_message and the EOD block of run_auto)

Message rendering is abstracted to one constructor per line shape;
the numeric content (which baseline is used, which percentage is
shown) is kept exact. -/

/-- One per-symbol line of a tracking or EOD report: either the
"veri yok" (no data) line, or a move line showing baseline, current
price and percentage from baseline. -/
inductive ReportLine
  | noData (sym : String)
  | move (sym : String) (base price pct : ℚ)
deriving DecidableEq, Repr

/-- The baseline used by `build_track_message` for one symbol:
`base = baseline.get(sym)`, replaced by the fresh quote's previous
close when absent or zero. -/
def track_base (baseline : List (String × ℚ)) (sym : String) (q : Quote) : ℚ :=
  match lookupKey sym baseline with
  | none => q.prev_close
  | some b => if b = 0 then q.prev_close else b

/-- One symbol's line in `build_track_message`, given the fetch
result for that symbol. -/
def track_line (baseline : List (String × ℚ)) (sym : String) :
    Option Quote → ReportLine
  | none => .noData sym
  | some q =>
    let base := track_base baseline sym q
    .move sym base q.price ((q.price - base) / base * 100)

/-- The per-symbol body of `build_track_message` over the watch list
(fetch results supplied as a function). -/
def build_track_lines (baseline : List (String × ℚ)) (symbols : List String)
    (fetch : String → Option Quote) : List ReportLine :=
  symbols.map (fun sym => track_line baseline sym (fetch sym))

/-- The baseline used by the EOD block of `run_auto` for one symbol:
`float(baseline.get(sym, q["prev_close"]) or q["prev_close"])` —
the fresh quote's previous close when the stored baseline is absent
or zero (falsy). -/
def eod_base (baseline : List (String × ℚ)) (sym : String) (q : Quote) : ℚ :=
  match lookupKey sym baseline with
  | none => q.prev_close
  | some b => if b = 0 then q.prev_close else b

/-- One symbol's line in the EOD summary of `run_auto`. -/
def eod_line (baseline : List (String × ℚ)) (sym : String) :
    Option Quote → ReportLine
  | none => .noData sym
  | some q =>
    let base := eod_base baseline sym q
    .move sym base q.price ((q.price - base) / base * 100)

end TaipoBist

/-! ## News filter (src/new_filter.py) -/

namespace NewFilter

/-- An RSS entry as handed over by the external feed parser: title,
link, summary, and the parsed publish date (already the result of
`_parse_published_dt`; `none` when the date cannot be parsed).
Date-times are modelled as integers under the usual order. -/
structure RssEntry where
  title : String
  link : String
  summary : String
  published : Option ℤ
deriving DecidableEq, Repr

/-- A collected news item (the dicts built by `collect_news_items`). -/
structure NewsItem where
  id : String
  title : String
  link : String
  score : ℤ
deriving DecidableEq, Repr

/-- `_within_window` from src/new_filter.py: an entry without a
parseable date is treated as inside the window; otherwise the closed
interval test. -/
def within_window (dt : Option ℤ) (ws we : ℤ) : Bool :=
  match dt with
  | none => true
  | some d => ws ≤ d && d ≤ we

/-- The item built for one surviving entry (`_hash_id` wraps SHA-1
over normalized text and `_score_item` keyword scoring over
Unicode-lowercased text; both are kept as explicit function
arguments). -/
def mk_news_item (hashId : String → String → String)
    (score : String → String → ℤ) (e : RssEntry) : NewsItem :=
  ⟨hashId e.title e.link, e.title.trim, e.link.trim, score e.title e.summary⟩

/-- The per-feed, per-entry filter of `collect_news_items`: the first
50 entries of each feed, dropping entries already in `seen_ids` and
entries outside the window. -/
def collect_pre (hashId : String → String → String)
    (score : String → String → ℤ) (seen : List String) (ws we : ℤ)
    (feeds : List (List RssEntry)) : List NewsItem :=
  feeds.flatMap (fun feed =>
    (feed.take 50).filterMap (fun e =>
      if hashId e.title e.link ∈ seen then none
      else if within_window e.published ws we then
        some (mk_news_item hashId score e)
      else none))

/-- The ranking of `collect_news_items`: stable descending sort by
(score, title). -/
def sort_news (items : List NewsItem) : List NewsItem :=
  items.mergeSort (fun a b =>
    b.score < a.score || (b.score == a.score && !(decide (a.title < b.title))))

/-- `collect_news_items` from src/new_filter.py: filter, rank, take
the best `maxItems`, append their ids to `seen_ids` and keep only the
last 200 ids. -/
def collect_news_items (hashId : String → String → String)
    (score : String → String → ℤ) (seen : List String) (ws we : ℤ)
    (maxItems : ℕ) (feeds : List (List RssEntry)) :
    List NewsItem × List String :=
  let picked := (sort_news (collect_pre hashId score seen ws we feeds)).take maxItems
  let seen2 := seen ++ picked.map NewsItem.id
  (picked, if 200 < seen2.length then seen2.drop (seen2.length - 200) else seen2)

end NewFilter

namespace TaipoBist

/-! ## Concrete values used in scenario theorems and witnesses -/

/-- Quote A of the spec's picker scenario. -/
def c7A : Quote := ⟨"A", 0, 0, 0.5, some 1⟩

/-- Quote B of the spec's picker scenario. -/
def c7B : Quote := ⟨"B", 0, 0, 0.8, some 2⟩

/-- Quote C of the spec's picker scenario. -/
def c7C : Quote := ⟨"C", 0, 0, 1.1, some 0.5⟩

/-- A freshly reset state (what `ensure_today_state` produces on a
new day before any phase has acted). -/
def freshState (today : String) : BotState :=
  ⟨0, 0, 0, today, ⟨[], [], "", ""⟩, false, "", [], 0, none, "", []⟩

/-! ## Helper lemmas -/

/-- Stable sorting preserves length. -/
lemma length_sort_by_rank (pool : List Quote) :
    (sort_by_rank pool).length = pool.length :=
  List.length_mergeSort pool

/-- A successful run of the band loop returns the top `n` of the
winning band's sorted pool, which has at least `n` members. -/
lemma pick_from_bands_some (qp : List Quote) (n : ℕ) :
    ∀ (bands : List (ℚ × ℚ)) (sel : List Quote) (b : ℚ × ℚ),
      pick_from_bands qp n bands = some (sel, b) →
      sel = (sort_by_rank (band_pool qp b)).take n ∧ n ≤ (band_pool qp b).length
  | [], sel, b => by simp [pick_from_bands]
  | b2 :: rest, sel, b => by
    intro h
    rw [pick_from_bands] at h
    by_cases hemp : (band_pool qp b2).isEmpty
    · rw [if_pos hemp] at h
      exact pick_from_bands_some qp n rest sel b h
    · rw [if_neg hemp] at h
      by_cases hlen : n ≤ (sort_by_rank (band_pool qp b2)).length
      · rw [if_pos hlen] at h
        obtain ⟨hsel, hb⟩ := Prod.mk.injEq .. ▸ Option.some.injEq .. ▸ h
        subst hb
        refine ⟨hsel.symm, ?_⟩
        rwa [length_sort_by_rank] at hlen
      · rw [if_neg hlen] at h
        exact pick_from_bands_some qp n rest sel b h

/-- The band loop stops at the first band whose pool reaches `n`
(when `n` is positive): bands after it are never consulted. -/
lemma pick_from_bands_first_hit (qp : List Quote) (n : ℕ)
    (hn : 0 < n) :
    ∀ (pre : List (ℚ × ℚ)) (b : ℚ × ℚ) (post : List (ℚ × ℚ)),
      (∀ b2 ∈ pre, (band_pool qp b2).length < n) →
      n ≤ (band_pool qp b).length →
      pick_from_bands qp n (pre ++ b :: post)
        = some ((sort_by_rank (band_pool qp b)).take n, b)
  | [], b, post => by
    intro _ hb
    rw [List.nil_append, pick_from_bands]
    have hne : ¬(band_pool qp b).isEmpty := by
      rw [List.isEmpty_iff]
      intro hcontra
      rw [hcontra] at hb
      simp at hb
      omega
    rw [if_neg hne, if_pos (by rwa [length_sort_by_rank])]
  | b2 :: pre, b, post => by
    intro hpre hb
    rw [List.cons_append, pick_from_bands]
    have h2 : (band_pool qp b2).length < n := hpre b2 (by simp)
    by_cases hemp : (band_pool qp b2).isEmpty
    · rw [if_pos hemp]
      exact pick_from_bands_first_hit qp n hn pre b post
        (fun x hx => hpre x (by simp [hx])) hb
    · rw [if_neg hemp,
        if_neg (by rw [length_sort_by_rank]; omega)]
      exact pick_from_bands_first_hit qp n hn pre b post
        (fun x hx => hpre x (by simp [hx])) hb

/-- The transport-failure branch of the dedup guard: nothing in the
state changes. -/
lemma send_auto_deduped_fail (hashText : String → String) (st : BotState)
    (key text : String) (now cooldown : ℤ) :
    send_auto_deduped hashText st key text now cooldown false = st := by
  unfold send_auto_deduped
  split <;> simp

/-- Once the EOD flag names today, later EOD-phase invocations are
no-ops. -/
lemma run_auto_eod_many_done (hashText : String → String) (today : String) :
    ∀ (invs : List EodInvocation) (st : BotState),
      st.eod_sent_day = today →
      run_auto_eod_many hashText today invs st = (st, 0)
  | [], st => by intro _; rfl
  | inv :: rest, st => by
    intro hdone
    rw [run_auto_eod_many]
    have h1 : run_auto_eod_invocation hashText today inv st = (st, false) := by
      simp [run_auto_eod_invocation, run_auto_close, hdone]
    rw [h1]
    simp [run_auto_eod_many_done hashText today rest st hdone]

/-! ## Claim theorems -/

/-- C3: for every key with a stored dedup record, `send_auto_deduped`
permits a send if and only if the content hash differs from the
stored hash OR at least the cooldown has elapsed since the recorded
timestamp; a second call with identical content within the cooldown
of a successful recorded send is suppressed; content whose hash
differs from the stored hash is permitted regardless of cooldown. -/
theorem dedup_correctness_c3 (hashText : String → String) (st : BotState)
    (key text : String) (now cooldown : ℤ) (rec : AutoSentRec)
    (hrec : lookupKey key st.last_auto_sent = some rec) :
    (dedup_suppressed hashText st key text now cooldown = false ↔
      (hashText text ≠ rec.hash ∨ cooldown ≤ now - rec.ts))
    ∧ (∀ text2, hashText text2 ≠ rec.hash →
        dedup_suppressed hashText st key text2 now cooldown = false)
    ∧ (∀ now1 now2 : ℤ,
        dedup_suppressed hashText st key text now1 cooldown = false →
        now2 - now1 < cooldown →
        dedup_suppressed hashText
          (send_auto_deduped hashText st key text now1 cooldown true)
          key text now2 cooldown = true) := by
  have hiff : ∀ t n,
      dedup_suppressed hashText st key t n cooldown = false ↔
        (hashText t ≠ rec.hash ∨ cooldown ≤ n - rec.ts) := by
    intro t n
    unfold dedup_suppressed
    rw [hrec]
    simp only [Option.map_some, Option.getD_some, Bool.and_eq_false_iff,
      beq_eq_false_iff_ne, ne_eq, decide_eq_false_iff_not, not_lt]
    constructor
    · rintro (h | h)
      · exact Or.inl (fun hc => h hc.symm)
      · exact Or.inr h
    · rintro (h | h)
      · exact Or.inl (fun hc => h hc.symm)
      · exact Or.inr h
  refine ⟨hiff text now, fun text2 h2 => (hiff text2 now).mpr (Or.inl h2), ?_⟩
  intro now1 now2 hperm hcool
  unfold send_auto_deduped
  rw [hperm]
  simp only [Bool.false_eq_true, if_false, if_true]
  unfold dedup_suppressed lookupKey
  simp [hcool]

/-- C3 witness at a concrete state, key, content and times. -/
theorem dedup_correctness_c3_witness :
    dedup_suppressed (fun s => s)
      ⟨0, 0, 0, "2024-01-02", ⟨[], [], "", ""⟩, false, "",
        [], 0, none, "", [("track", ⟨100, "old"⟩)]⟩
      "track" "newmsg" 150 60 = false ↔
      (("newmsg" : String) ≠ "old" ∨ (60 : ℤ) ≤ 150 - 100) :=
  (dedup_correctness_c3 (fun s => s)
    ⟨0, 0, 0, "2024-01-02", ⟨[], [], "", ""⟩, false, "",
      [], 0, none, "", [("track", ⟨100, "old"⟩)]⟩
    "track" "newmsg" 150 60 ⟨100, "old"⟩ (by rfl)).1

/-- C4: when the notification transport reports failure, the dedup
guard's state — in particular the stored record of every key — is
left unmodified by the attempted send; equivalently a record is
updated only together with a successful send. -/
theorem send_failure_record_c4 (hashText : String → String) (st : BotState)
    (key text : String) (now cooldown : ℤ) (sendOk : Bool)
    (hfail : sendOk = false) :
    send_auto_deduped hashText st key text now cooldown sendOk = st := by
  subst hfail
  exact send_auto_deduped_fail hashText st key text now cooldown

/-- C4 witness at a concrete state and failed transport. -/
theorem send_failure_record_c4_witness :
    send_auto_deduped (fun s => s)
      ⟨0, 0, 0, "2024-01-02", ⟨[], [], "", ""⟩, false, "",
        [], 0, none, "", [("track", ⟨100, "old"⟩)]⟩
      "track" "x" 200 60 false =
      ⟨0, 0, 0, "2024-01-02", ⟨[], [], "", ""⟩, false, "",
        [], 0, none, "", [("track", ⟨100, "old"⟩)]⟩ :=
  send_failure_record_c4 (fun s => s) _ "track" "x" 200 60 false rfl

/-- The picker, with its local bindings unfolded (definitional). -/
lemma pick_breakouts_eq (quotes : List Quote) (n : ℕ) :
    pick_breakouts_with_auto_band quotes n =
      match pick_from_bands (quotes_pos quotes) n AUTO_BAND_STEPS with
      | some (sel, b) => (sel, some b)
      | none =>
        if ((sort_by_rank ((quotes_pos quotes).filter
              (fun q => 0 ≤ q.change_pct ∧ q.change_pct ≤ 3))).take n).length = n
        then ((sort_by_rank ((quotes_pos quotes).filter
              (fun q => 0 ≤ q.change_pct ∧ q.change_pct ≤ 3))).take n, some (0, 3))
        else ([], none) := rfl

/-- C5: every non-empty selection returned by the breakout picker has
length exactly `n`, and a selection without a band is empty. -/
theorem basket_size_c5 (quotes : List Quote) (n : ℕ) :
    ((pick_breakouts_with_auto_band quotes n).1 ≠ [] →
      (pick_breakouts_with_auto_band quotes n).1.length = n)
    ∧ ((pick_breakouts_with_auto_band quotes n).2 = none →
      (pick_breakouts_with_auto_band quotes n).1 = []) := by
  rw [pick_breakouts_eq]
  cases hpick : pick_from_bands (quotes_pos quotes) n AUTO_BAND_STEPS with
  | some r =>
    obtain ⟨sel, b⟩ := r
    obtain ⟨hsel, hb⟩ :=
      pick_from_bands_some (quotes_pos quotes) n AUTO_BAND_STEPS sel b hpick
    refine ⟨fun _ => ?_, by simp⟩
    show sel.length = n
    subst hsel
    simp only [List.length_take, length_sort_by_rank]
    omega
  | none =>
    by_cases hc : ((sort_by_rank ((quotes_pos quotes).filter
        (fun q => 0 ≤ q.change_pct ∧ q.change_pct ≤ 3))).take n).length = n
    · rw [if_pos hc]
      exact ⟨fun _ => hc, by simp⟩
    · rw [if_neg hc]
      exact ⟨fun hcontra => absurd rfl hcontra, fun _ => rfl⟩

/-- C5 witness: a one-quote universe with n = 1 gives a selection of
length exactly 1, and the empty universe with n = 1 gives the empty
selection with no band. -/
theorem basket_size_c5_witness :
    (pick_breakouts_with_auto_band [⟨"X", 10, 10, 0.5, none⟩] 1).1.length = 1
    ∧ (pick_breakouts_with_auto_band [] 1).1 = [] := by
  constructor
  · exact (basket_size_c5 [⟨"X", 10, 10, 0.5, none⟩] 1).1 (by
      norm_num [pick_breakouts_with_auto_band, pick_from_bands, quotes_pos,
        band_pool, sort_by_rank, rank_score, AUTO_BAND_STEPS, List.filter])
  · exact (basket_size_c5 [] 1).2 (by
      norm_num [pick_breakouts_with_auto_band, pick_from_bands, quotes_pos,
        band_pool, sort_by_rank, AUTO_BAND_STEPS, List.filter])

/-- C6: if a band of the configured ordered band list gathers at
least `n` positive movers while every earlier (narrower) band falls
short, the picker returns the top `n` of exactly that band's pool —
it never falls through to any later (wider) configured band or to
the fallback band. -/
theorem widening_monotonicity_c6 (quotes : List Quote) (n : ℕ)
    (pre : List (ℚ × ℚ)) (b : ℚ × ℚ) (post : List (ℚ × ℚ))
    (hsteps : AUTO_BAND_STEPS = pre ++ b :: post)
    (hn : 0 < n)
    (hpre : ∀ b2 ∈ pre, (band_pool (quotes_pos quotes) b2).length < n)
    (hb : n ≤ (band_pool (quotes_pos quotes) b).length) :
    pick_breakouts_with_auto_band quotes n
      = ((sort_by_rank (band_pool (quotes_pos quotes) b)).take n, some b) := by
  rw [pick_breakouts_eq, hsteps,
    pick_from_bands_first_hit (quotes_pos quotes) n hn pre b post hpre hb]

/-- C6 witness: one quote at +0.95% misses the first band
(0.40, 0.90) but fills the second band (0.40, 1.00) with n = 1. -/
theorem widening_monotonicity_c6_witness :
    (∀ b2 ∈ [((0.40 : ℚ), (0.90 : ℚ))],
      (band_pool (quotes_pos [⟨"X", 10, 10, 0.95, none⟩]) b2).length < 1)
    ∧ 1 ≤ (band_pool (quotes_pos [⟨"X", 10, 10, 0.95, none⟩]) (0.40, 1.00)).length
    ∧ pick_breakouts_with_auto_band [⟨"X", 10, 10, 0.95, none⟩] 1
        = ((sort_by_rank (band_pool (quotes_pos [⟨"X", 10, 10, 0.95, none⟩])
            (0.40, 1.00))).take 1, some (0.40, 1.00)) := by
  have hpre : ∀ b2 ∈ [((0.40 : ℚ), (0.90 : ℚ))],
      (band_pool (quotes_pos [⟨"X", 10, 10, 0.95, none⟩]) b2).length < 1 := by
    intro b2 hb2
    rw [List.mem_singleton] at hb2
    subst hb2
    norm_num [band_pool, quotes_pos, List.filter]
  have hb : 1 ≤ (band_pool (quotes_pos [⟨"X", 10, 10, 0.95, none⟩]) (0.40, 1.00)).length := by
    norm_num [band_pool, quotes_pos, List.filter]
  exact ⟨hpre, hb,
    widening_monotonicity_c6 [⟨"X", 10, 10, 0.95, none⟩] 1
      [(0.40, 0.90)] (0.40, 1.00)
      [(0.40, 1.20), (0.30, 1.20), (0.20, 1.50), (0.10, 2.00), (0.00, 3.00)]
      rfl one_pos hpre hb⟩

/-- C7 counterexample: with the source's rank function
(vol_ratio * 10 + change_pct), quote A of the scenario has rank 10.5,
not 5.5 as the claim states. -/
theorem scenario_c7_counterexample :
    rank_score c7A = 10.5 ∧ ¬ rank_score c7A = 5.5 := by
  constructor <;> norm_num [rank_score, c7A]

/-- C7 (amended): in the scenario with count 2, the first band
(0.4, 0.9) holds exactly A and B, rank(B) = 20.8 exceeds
rank(A) = 10.5, and the picker returns [B, A] with band (0.4, 0.9). -/
theorem scenario_c7 :
    band_pool (quotes_pos [c7A, c7B, c7C]) (0.4, 0.9) = [c7A, c7B]
    ∧ rank_score c7B = 20.8 ∧ rank_score c7A = 10.5
    ∧ rank_score c7A < rank_score c7B
    ∧ pick_breakouts_with_auto_band [c7A, c7B, c7C] 2
        = ([c7B, c7A], some (0.4, 0.9)) := by
  refine ⟨?_, ?_, ?_, ?_, ?_⟩ <;>
    norm_num [band_pool, quotes_pos, rank_score, c7A, c7B, c7C,
      pick_breakouts_with_auto_band, pick_from_bands, sort_by_rank,
      AUTO_BAND_STEPS, List.mergeSort, List.filter]

/-- C1 counterexample: in the EOD branch a failed transport send
still records the done-flag: after an 18:10 invocation whose send
fails, `eod_sent_day` names today while no "close" send is recorded,
and the next 18:10 invocation does not retry. -/
theorem eod_retry_c1_counterexample :
    (run_auto_eod_invocation (fun s => s) "2024-01-02"
        ⟨0, 18, 10, 1000, "EOD", false⟩ (freshState "2024-01-02")).1.eod_sent_day
      = "2024-01-02"
    ∧ lookupKey "close"
        (run_auto_eod_invocation (fun s => s) "2024-01-02"
          ⟨0, 18, 10, 1000, "EOD", false⟩ (freshState "2024-01-02")).1.last_auto_sent
      = none
    ∧ (run_auto_eod_invocation (fun s => s) "2024-01-02"
        ⟨0, 18, 10, 1300, "EOD", true⟩
        (run_auto_eod_invocation (fun s => s) "2024-01-02"
          ⟨0, 18, 10, 1000, "EOD", false⟩ (freshState "2024-01-02")).1).2
      = false := by
  refine ⟨rfl, rfl, rfl⟩

/-- C1 (amended): across any number of close-report-window
invocations on the same day starting from an unset flag, the EOD
branch body runs exactly once — on the first invocation — and
records the done-flag regardless of transport outcome; a failed
first send leaves no "close" dedup record and is never retried that
day. -/
theorem eod_exactly_once_c1 (hashText : String → String) (today : String)
    (inv : EodInvocation) (rest : List EodInvocation) (st : BotState)
    (hflag : st.eod_sent_day ≠ today)
    (hphase : ∀ i ∈ inv :: rest, is_close_report_time i.wd i.hour i.minute = true) :
    (run_auto_eod_many hashText today (inv :: rest) st).2 = 1
    ∧ (run_auto_eod_many hashText today (inv :: rest) st).1.eod_sent_day = today
    ∧ (inv.sendOk = false →
        lookupKey "close"
          (run_auto_eod_many hashText today (inv :: rest) st).1.last_auto_sent
          = lookupKey "close" st.last_auto_sent) := by
  have hclose := hphase inv (by simp)
  have h1 : run_auto_eod_invocation hashText today inv st
      = ({ send_auto_deduped hashText st "close" inv.text inv.now 1800 inv.sendOk with
            eod_sent_day := today }, true) := by
    simp [run_auto_eod_invocation, run_auto_close, hclose, hflag]
  have hval : run_auto_eod_many hashText today (inv :: rest) st
      = ({ send_auto_deduped hashText st "close" inv.text inv.now 1800 inv.sendOk with
            eod_sent_day := today }, 1) := by
    rw [run_auto_eod_many]
    simp only [h1]
    rw [run_auto_eod_many_done hashText today rest _ rfl]
    simp
  rw [hval]
  refine ⟨rfl, rfl, fun hf => ?_⟩
  rw [hf, send_auto_deduped_fail]

/-- C1 witness: two same-day 18:10 invocations with successful
transport run the EOD branch exactly once. -/
theorem eod_exactly_once_c1_witness :
    (run_auto_eod_many (fun s => s) "2024-01-02"
        [⟨0, 18, 10, 1000, "EOD", true⟩, ⟨0, 18, 10, 1300, "EOD", true⟩]
        (freshState "2024-01-02")).2 = 1 :=
  (eod_exactly_once_c1 (fun s => s) "2024-01-02"
    ⟨0, 18, 10, 1000, "EOD", true⟩ [⟨0, 18, 10, 1300, "EOD", true⟩]
    (freshState "2024-01-02") (by decide) (by decide)).1

/-- C2 counterexample: the hourly tracking phase at hour 11 is not
active at two distinct wall-clock minutes — the predicate matches
minute :00 only, not a closed multi-minute tolerance window. -/
theorem track_window_c2_counterexample :
    ¬ ∃ m1 m2 : ℕ, m1 ≠ m2
      ∧ is_track_time 0 11 m1 = true ∧ is_track_time 0 11 m2 = true := by
  rintro ⟨m1, m2, hne, h1, h2⟩
  simp [is_track_time, TRACK_HOURS_TR, TRACK_MINUTE_TR, is_weekday_tr] at h1 h2
  omega

/-- C2 (amended): every phase predicate of the window evaluator is
true at exactly one wall-clock minute (for the tracking predicate,
exactly one minute per tracking hour, namely :00) — single-minute
triggers, not positive-duration tolerance windows. -/
theorem single_minute_phases_c2 :
    (∀ wd h m1 m2, is_open_report_time wd h m1 = true →
      is_open_report_time wd h m2 = true → m1 = m2)
    ∧ (∀ wd h m1 m2, is_pick_trigger_time wd h m1 = true →
      is_pick_trigger_time wd h m2 = true → m1 = m2)
    ∧ (∀ wd h m1 m2, is_track_time wd h m1 = true →
      is_track_time wd h m2 = true → m1 = m2)
    ∧ (∀ wd h m1 m2, is_preclose_time wd h m1 = true →
      is_preclose_time wd h m2 = true → m1 = m2)
    ∧ (∀ wd h m1 m2, is_close_report_time wd h m1 = true →
      is_close_report_time wd h m2 = true → m1 = m2)
    ∧ (∀ h ∈ TRACK_HOURS_TR, is_track_time 0 h 0 = true)
    ∧ is_open_report_time 0 10 0 = true
    ∧ is_pick_trigger_time 0 10 10 = true
    ∧ is_preclose_time 0 17 30 = true
    ∧ is_close_report_time 0 18 10 = true := by
  refine ⟨?_, ?_, ?_, ?_, ?_, by decide, by decide, by decide, by decide, by decide⟩
  all_goals
    intro wd h m1 m2 h1 h2
  · simp [is_open_report_time] at h1 h2; omega
  · simp [is_pick_trigger_time] at h1 h2; omega
  · simp [is_track_time, TRACK_MINUTE_TR] at h1 h2; omega
  · simp [is_preclose_time] at h1 h2; omega
  · simp [is_close_report_time] at h1 h2; omega

/-- C2 witness: the tracking-minute uniqueness applied at hour 11,
minute 0 twice, and the concrete activity at 11:00. -/
theorem single_minute_phases_c2_witness :
    (0 : ℕ) = 0 ∧ is_track_time 0 11 0 = true :=
  ⟨single_minute_phases_c2.2.2.1 0 11 0 0 (by decide) (by decide),
   single_minute_phases_c2.2.2.2.2.2.1 11 (by decide)⟩

/-- C8: on the first invocation whose date differs from the stored
ledger date, `ensure_today_state` resets the watch ledger (symbols,
baselines, pick metadata), the pick-sent flag, the track key, the
EOD day flag and the auto-send dedup records, and `main` applies
this reset before the command listener and the phase logic of
`run_auto` see the state. -/
theorem day_rollover_c8 (today : String) (st : BotState)
    (commandLogic phaseLogic : BotState → BotState)
    (hday : st.day ≠ today) :
    (ensure_today_state today st).day = today
    ∧ (ensure_today_state today st).watch = ⟨[], [], "", ""⟩
    ∧ (ensure_today_state today st).sent_pick_message = false
    ∧ (ensure_today_state today st).last_track_sent_key = ""
    ∧ (ensure_today_state today st).eod_sent_day = ""
    ∧ (ensure_today_state today st).last_auto_sent = []
    ∧ main_flow commandLogic phaseLogic today st
        = phaseLogic (commandLogic (ensure_today_state today st)) := by
  unfold main_flow ensure_today_state
  rw [if_pos hday]
  exact ⟨rfl, rfl, rfl, rfl, rfl, rfl, rfl⟩

/-- C8 witness: a populated January 1st state rolled over to
January 2nd loses its watch list and EOD flag. -/
theorem day_rollover_c8_witness :
    (ensure_today_state "2024-01-02"
        ⟨5, 6, 7, "2024-01-01",
          ⟨["ABC.IS"], [("ABC.IS", 10)], "01.01.2024 10:10", "band"⟩,
          true, "2024-01-01 11:00", [("haber", 99)], 50, none, "2024-01-01",
          [("pick", ⟨123, "h"⟩)]⟩).watch = ⟨[], [], "", ""⟩
    ∧ (ensure_today_state "2024-01-02"
        ⟨5, 6, 7, "2024-01-01",
          ⟨["ABC.IS"], [("ABC.IS", 10)], "01.01.2024 10:10", "band"⟩,
          true, "2024-01-01 11:00", [("haber", 99)], 50, none, "2024-01-01",
          [("pick", ⟨123, "h"⟩)]⟩).eod_sent_day = "" :=
  ⟨(day_rollover_c8 "2024-01-02" _ id id (by decide)).2.1,
   (day_rollover_c8 "2024-01-02" _ id id (by decide)).2.2.2.2.1⟩

/-- C9: for a watched symbol whose stored baseline is absent or
zero, both the hourly tracking line and the EOD summary line are
normal move lines (not errors) that use the fresh quote's previous
close as the baseline of the percentage computation. -/
theorem baseline_fallback_c9 (baseline : List (String × ℚ)) (sym : String) (q : Quote)
    (habsent : lookupKey sym baseline = none ∨ lookupKey sym baseline = some 0) :
    track_line baseline sym (some q)
        = .move sym q.prev_close q.price ((q.price - q.prev_close) / q.prev_close * 100)
    ∧ eod_line baseline sym (some q)
        = .move sym q.prev_close q.price ((q.price - q.prev_close) / q.prev_close * 100) := by
  have hb : track_base baseline sym q = q.prev_close := by
    unfold track_base
    rcases habsent with h | h <;> simp [h]
  have he : eod_base baseline sym q = q.prev_close := by
    unfold eod_base
    rcases habsent with h | h <;> simp [h]
  constructor
  · simp only [track_line, hb]
  · simp only [eod_line, he]

/-- C9 witness: a stored zero baseline gives a move line computed
from the fresh previous close 10. -/
theorem baseline_fallback_c9_witness :
    track_line [("ABC.IS", 0)] "ABC.IS" (some ⟨"ABC.IS", 12, 10, 20, none⟩)
        = .move "ABC.IS" 10 12 ((12 - 10) / 10 * 100)
    ∧ eod_line [("ABC.IS", 0)] "ABC.IS" (some ⟨"ABC.IS", 12, 10, 20, none⟩)
        = .move "ABC.IS" 10 12 ((12 - 10) / 10 * 100) :=
  baseline_fallback_c9 [("ABC.IS", 0)] "ABC.IS" ⟨"ABC.IS", 12, 10, 20, none⟩ (Or.inr rfl)

end TaipoBist

namespace NewFilter

/-- C10: an RSS entry whose publish date cannot be parsed passes the
window test of every requested window; if it is also not in the
seen-ids list it reaches the pre-ranking item list (and the sorted
list), so it can only be dropped by the seen-ids dedup or by the
top-`maxItems` ranking cutoff that produces the final pick. -/
theorem unparsed_date_c10 (hashId : String → String → String)
    (score : String → String → ℤ) (seen : List String) (ws we : ℤ)
    (maxItems : ℕ) (feeds : List (List RssEntry)) (feed : List RssEntry)
    (e : RssEntry)
    (hfeed : feed ∈ feeds) (hentry : e ∈ feed.take 50)
    (hdate : e.published = none)
    (hseen : hashId e.title e.link ∉ seen) :
    within_window e.published ws we = true
    ∧ mk_news_item hashId score e ∈ collect_pre hashId score seen ws we feeds
    ∧ mk_news_item hashId score e ∈ sort_news (collect_pre hashId score seen ws we feeds)
    ∧ (collect_news_items hashId score seen ws we maxItems feeds).1
        = (sort_news (collect_pre hashId score seen ws we feeds)).take maxItems := by
  have hw : within_window e.published ws we = true := by rw [hdate]; rfl
  have hmem : mk_news_item hashId score e ∈ collect_pre hashId score seen ws we feeds := by
    unfold collect_pre
    rw [List.mem_flatMap]
    refine ⟨feed, hfeed, List.mem_filterMap.mpr ⟨e, hentry, ?_⟩⟩
    rw [if_neg hseen, if_pos hw]
  exact ⟨hw, hmem, List.mem_mergeSort.mpr hmem, rfl⟩

/-- C10 witness: a single undated entry in a single feed reaches the
pre-ranking list. -/
theorem unparsed_date_c10_witness :
    mk_news_item (fun t l => t ++ l) (fun _ _ => 0) ⟨"t", "l", "s", none⟩
      ∈ collect_pre (fun t l => t ++ l) (fun _ _ => 0) [] 0 10
          [[⟨"t", "l", "s", none⟩]] :=
  (unparsed_date_c10 (fun t l => t ++ l) (fun _ _ => 0) [] 0 10 3
    [[⟨"t", "l", "s", none⟩]] [⟨"t", "l", "s", none⟩] ⟨"t", "l", "s", none⟩
    (by simp) (by simp) rfl (by simp)).2.1

end NewFilter
